import Mathlib

/-!
Verification of the `img_to_text` repository: a shallow embedding of the text
classification pipeline (src/TextClassifier.py) and of the text extraction
pipeline (src/TextExtractor.py), with theorems settling the spec's claims.

Numeric values (Python floats and ints flowing into the numeric feature
matrix) are modelled as rationals; machine floating point is idealized as
exact arithmetic.  Fallible Python code is modelled with `Except PyErr`.
External collaborators (the BERT encoder, the tokenizer, initial layer
weights, the filesystem) are supplied as explicit environment parameters.
-/

namespace ImgToText

/-- Embedding of the Python exception classes the code under src/ can raise,
plus the two error classes named only by the specification's error taxonomy
(`ShapeMismatchError`, `InvalidFeatureError`); the latter two are defined
nowhere in the source and are raised by no code path. -/
inductive PyErr where
  | fileNotFoundError
  | isADirectoryError
  | unsupportedExtensionError
  | notImplementedExtensionError
  | unidentifiedImageError
  | valueError
  | runtimeError
  | keyError
  | typeError
  | torchRuntimeError
  | shapeMismatchError
  | invalidFeatureError
deriving DecidableEq

/-- Python dict key access `d[k]`: returns the value, or raises `KeyError`
when the key is absent. -/
def pyGet {α : Type} (v : Option α) : Except PyErr α :=
  match v with
  | some x => Except.ok x
  | none => Except.error PyErr.keyError

/-- Left-to-right fail-fast traversal: the semantics of a Python list
comprehension whose body may raise. -/
def mapE {α β : Type} (f : α → Except PyErr β) : List α → Except PyErr (List β)
  | [] => Except.ok []
  | x :: xs =>
    match f x with
    | Except.error e => Except.error e
    | Except.ok y =>
      match mapE f xs with
      | Except.error e => Except.error e
      | Except.ok ys => Except.ok (y :: ys)

/-- `FeaturedText` (src/TextExtractor.py lines 16-21) is a `TypedDict`; at
runtime it is a plain dict, so every declared key may be absent and the
`bbox` value may have any length.  All numeric fields are modelled as
rationals. -/
structure FeaturedText where
  text : Option String
  size : Option ℚ
  flags : Option ℚ
  bbox : Option (List ℚ)
  page : Option ℚ
deriving DecidableEq

/-- All five required keys are present (no constraint on the bbox length). -/
def FeaturedText.hasAllFields (r : FeaturedText) : Bool :=
  r.text.isSome && r.size.isSome && r.flags.isSome && r.bbox.isSome && r.page.isSome

/-- All five required keys are present and the bbox has exactly 4 components,
the well-formedness the spec expects of a `FeaturedText` record. -/
def FeaturedText.completeB (r : FeaturedText) : Bool :=
  r.hasAllFields &&
    (match r.bbox with
     | some bb => bb.length == 4
     | none => false)

/-- One row of the numeric matrix, src/TextClassifier.py line 95:
the list `[fte['size'], fte['flags'], fte['page']] + list(fte['bbox'])`;
any absent key raises `KeyError`. -/
def numericRow (fte : FeaturedText) : Except PyErr (List ℚ) :=
  match fte.size, fte.flags, fte.page, fte.bbox with
  | some s, some f, some p, some bb => Except.ok ([s, f, p] ++ bb)
  | _, _, _, _ => Except.error PyErr.keyError

/-- The numeric matrix of a batch, src/TextClassifier.py lines 94-97. -/
def numericMatrix (featured_text : List FeaturedText) : Except PyErr (List (List ℚ)) :=
  mapE numericRow featured_text

/-- Minimum of a list of rationals (value on `[]` is irrelevant: it is only
used on nonempty columns). -/
def listMin : List ℚ → ℚ
  | [] => 0
  | [x] => x
  | x :: y :: ys => min x (listMin (y :: ys))

/-- Maximum of a list of rationals. -/
def listMax : List ℚ → ℚ
  | [] => 0
  | [x] => x
  | x :: y :: ys => max x (listMax (y :: ys))

/-- The values of column `j` of a row-major matrix. -/
def colVals (rows : List (List ℚ)) (j : Nat) : List ℚ :=
  rows.filterMap (fun r => r[j]?)

/-- sklearn `MinMaxScaler` with the default feature range (0,1) transforms an
entry `x` of a column with fitted data minimum `p.1` and maximum `p.2` to
`(x - min) * scale` where the scale divisor is replaced by 1 when the column
is constant (sklearn `_handle_zeros_in_scale`), so a constant column maps to
0 everywhere. -/
def minmaxScale (p : ℚ × ℚ) (x : ℚ) : ℚ :=
  (x - p.1) / (if p.2 - p.1 = 0 then 1 else p.2 - p.1)

/-- Fitting the sklearn `MinMaxScaler` to a batch: numpy/sklearn validation
rejects an empty batch, a ragged nested list, and a zero-feature matrix with
`ValueError`; otherwise the fitted parameters are the per-column data
minimum and maximum. -/
def MinMaxScaler.fitParams (rows : List (List ℚ)) : Except PyErr (List (ℚ × ℚ)) :=
  match rows with
  | [] => Except.error PyErr.valueError
  | r0 :: rest =>
    if r0.length = 0 then Except.error PyErr.valueError
    else if rest.all (fun r => r.length = r0.length) then
      Except.ok ((List.range r0.length).map (fun j =>
        (listMin (colVals (r0 :: rest) j), listMax (colVals (r0 :: rest) j))))
    else Except.error PyErr.valueError

/-- sklearn `scaler.fit_transform(X)`: fit to the batch, then transform the
same batch column-wise; returns the fitted parameters together with the
transformed matrix. -/
def MinMaxScaler.fit_transform (rows : List (List ℚ)) :
    Except PyErr (List (ℚ × ℚ) × List (List ℚ)) :=
  match MinMaxScaler.fitParams rows with
  | Except.error e => Except.error e
  | Except.ok params =>
    Except.ok (params, rows.map (fun r => List.zipWith minmaxScale params r))

/-- The mutable state of the single `MinMaxScaler` instance stored on the
pipeline (src/TextClassifier.py line 55): unfitted at construction, and
holding per-column (min, max) parameters after each `fit_transform`. -/
inductive ScalerState where
  | unfitted
  | fitted (params : List (ℚ × ℚ))
deriving DecidableEq

/-- The optimizer kinds the pipeline can construct (only Adam appears). -/
inductive OptimKind where
  | adam
deriving DecidableEq

/-- Optimizer configuration: kind and learning rate. -/
structure OptimizerCfg where
  kind : OptimKind
  lr : ℚ
deriving DecidableEq

/-- Loss function kinds the pipeline can construct (only cross-entropy
appears). -/
inductive LossKind where
  | crossEntropy
deriving DecidableEq

/-- src/TextClassifier.py line 56: `self.loss_fn = nn.CrossEntropyLoss()`. -/
def initLossFn : LossKind := LossKind.crossEntropy

/-- src/TextClassifier.py line 67:
`self.optimizer = torch.optim.Adam(self.model.parameters(), lr=1e-4)`. -/
def initOptimizer : OptimizerCfg := { kind := OptimKind.adam, lr := 1 / 10000 }

/-- A `torch.nn.Linear(in_features, out_features)` layer: a weight row per
output feature and a bias per output feature. -/
structure LinearLayer where
  in_features : Nat
  weight : List (List ℚ)
  bias : List ℚ

/-- Dot product of two equally long rational vectors. -/
def dotQ (w x : List ℚ) : ℚ := (List.zipWith (fun a b => a * b) w x).sum

/-- Rectified linear unit over the rationals. -/
def reluQ (x : ℚ) : ℚ := max x 0

/-- Applying a linear layer to one input row: torch raises a runtime shape
error when the input width differs from `in_features`; otherwise each output
feature is the dot product with its weight row plus its bias. -/
def LinearLayer.apply (L : LinearLayer) (x : List ℚ) : Except PyErr (List ℚ) :=
  if x.length = L.in_features then
    Except.ok (List.zipWith (fun w b => dotQ w x + b) L.weight L.bias)
  else Except.error PyErr.torchRuntimeError

/-- The external torch/transformers world: the pretrained BERT pooler output
(per model name and input text, absorbing the tokenizer), and the random
initial entries of freshly constructed `nn.Linear` layers. -/
structure TorchEnv where
  bertPooler : String → String → List ℚ
  wEntry : Nat → Nat → Nat → Nat → ℚ
  bEntry : Nat → Nat → Nat → ℚ

/-- `torch.nn.Linear(inF, outF)`: the weight matrix always has shape
(outF, inF) and the bias has length outF, with entries drawn from the
environment. -/
def nnLinear (env : TorchEnv) (inF outF : Nat) : LinearLayer :=
  { in_features := inF
    weight := (List.range outF).map (fun i => (List.range inF).map (env.wEntry inF outF i))
    bias := (List.range outF).map (env.bEntry inF outF) }

/-- `TextClassifierModel` (src/TextClassifier.py lines 25-34): a pretrained
BERT text branch and three linear layers. -/
structure TextClassifierModel where
  bert : String → List ℚ
  numeric_features_layer : LinearLayer
  combined_layer : LinearLayer
  output_layer : LinearLayer

/-- `TextClassifierModel.__init__` (src/TextClassifier.py lines 26-34):
`Linear(num_numeric_features, 128)`, `Linear(768 + 128, 256)`,
`Linear(256, num_classes)`. -/
def TextClassifierModel.make (env : TorchEnv) (bert_model_name : String)
    (num_numeric_features num_classes : Nat) : TextClassifierModel :=
  { bert := env.bertPooler bert_model_name
    numeric_features_layer := nnLinear env num_numeric_features 128
    combined_layer := nnLinear env (768 + 128) 256
    output_layer := nnLinear env 256 num_classes }

/-- `TextClassifierModel.forward` (src/TextClassifier.py lines 36-48): BERT
pooler output per text, the numeric branch through `numeric_features_layer`
with ReLU, concatenation along dim 1 (`torch.cat` raises when the two batch
sizes differ), then `combined_layer` with ReLU and the raw `output_layer`
logits. -/
def TextClassifierModel.forward (m : TextClassifierModel) (text : List String)
    (numeric_features : List (List ℚ)) : Except PyErr (List (List ℚ)) :=
  match mapE (fun r => Except.map (List.map reluQ) (m.numeric_features_layer.apply r))
      numeric_features with
  | Except.error e => Except.error e
  | Except.ok numeric_transformed =>
    if (List.map m.bert text).length = numeric_transformed.length then
      mapE (fun c =>
          match m.combined_layer.apply c with
          | Except.error e => Except.error e
          | Except.ok v => m.output_layer.apply (v.map reluQ))
        (List.zipWith (fun a b => a ++ b) (List.map m.bert text) numeric_transformed)
    else Except.error PyErr.torchRuntimeError

/-- `torch.argmax` along dim 1 on one row: the index of the first maximal
value. -/
def argmaxIdx (l : List ℚ) : Nat := l.indexOf (listMax l)

/-- `TextClassifierPipeline.predict` (src/TextClassifier.py lines 79-85):
forward pass under `no_grad`, then per-row argmax; `torch.argmax` raises
when a row is empty (zero classes). -/
def TextClassifierPipeline.predict (m : TextClassifierModel) (text_data : List String)
    (numeric_features : List (List ℚ)) : Except PyErr (List Nat) :=
  match m.forward text_data numeric_features with
  | Except.error e => Except.error e
  | Except.ok prediction =>
    if prediction.all (fun r => !r.isEmpty) then
      Except.ok (prediction.map argmaxIdx)
    else Except.error PyErr.torchRuntimeError

/-- The state of a `TextClassifierPipeline` instance
(src/TextClassifier.py lines 52-67). -/
structure PipelineState where
  model_path : Option String
  scaler : ScalerState
  loss_fn : LossKind
  model : TextClassifierModel
  optimizer : OptimizerCfg

/-- The state-independent part of `TextClassifierPipeline.preprocess_input`
(src/TextClassifier.py lines 91-101): extract the texts (line 92), build the
7-column numeric matrix (lines 94-97), and run `fit_transform` on it
(line 99).  Returns the fitted scaler parameters together with the texts and
the normalized matrix. -/
def preprocessCore (featured_text : List FeaturedText) :
    Except PyErr (List (ℚ × ℚ) × List String × List (List ℚ)) :=
  match mapE (fun fte => pyGet fte.text) featured_text with
  | Except.error e => Except.error e
  | Except.ok text_data =>
    match numericMatrix featured_text with
    | Except.error e => Except.error e
    | Except.ok numeric_features =>
      match MinMaxScaler.fit_transform numeric_features with
      | Except.error e => Except.error e
      | Except.ok (params, normalized_features) =>
        Except.ok (params, text_data, normalized_features)

/-- `TextClassifierPipeline.preprocess_input` (src/TextClassifier.py lines
91-101): runs `preprocessCore` on the batch; the `fit_transform` call on
line 99 refits the pipeline's shared `self.scaler` in place, recorded here
as the updated scaler field of the returned state.  No other field is
touched. -/
def TextClassifierPipeline.preprocess_input (st : PipelineState)
    (featured_text : List FeaturedText) :
    Except PyErr (PipelineState × List String × List (List ℚ)) :=
  match preprocessCore featured_text with
  | Except.error e => Except.error e
  | Except.ok (params, text_data, normalized_features) =>
    Except.ok ({ st with scaler := ScalerState.fitted params },
      text_data, normalized_features)

/-- The observable operations of one epoch of `__train_model`
(src/TextClassifier.py lines 105-118). -/
inductive TrainEvent where
  | forward
  | lossCE
  | zeroGrad
  | backward
  | optStep
deriving DecidableEq

/-- One epoch of `TextClassifierPipeline.__train_model` at the shape level,
given the text batch size, the numeric matrix row count and the label count:
`torch.cat` inside `forward` raises when the numeric row count differs from
the text batch size; `CrossEntropyLoss` raises `ValueError` when the label
count differs from the logits row count; otherwise the epoch performs the
forward pass, the cross-entropy loss, `zero_grad`, `backward` and one
optimizer step, in the source's order (lines 112-118). -/
def runEpoch (textLen numRows labelLen : Nat) : List TrainEvent × Option PyErr :=
  if textLen = numRows then
    if labelLen = textLen then
      ([TrainEvent.forward, TrainEvent.lossCE, TrainEvent.zeroGrad,
        TrainEvent.backward, TrainEvent.optStep], none)
    else ([TrainEvent.forward], some PyErr.valueError)
  else ([], some PyErr.torchRuntimeError)

/-- `TextClassifierPipeline.__train_model` (src/TextClassifier.py lines
103-118): `for epoch in range(epochs)` runs the epochs sequentially with no
early stopping; an exception aborts the remaining epochs.  Returns the
concatenated event trace and the raised error, if any. -/
def train_model_run (textLen numRows labelLen : Nat) : Nat → List TrainEvent × Option PyErr
  | 0 => ([], none)
  | Nat.succ n =>
    match runEpoch textLen numRows labelLen with
    | (evs, some e) => (evs, some e)
    | (evs, none) =>
      let r := train_model_run textLen numRows labelLen n
      (evs ++ r.1, r.2)

/-- `TextClassifierPipeline.__init__` (src/TextClassifier.py lines 52-76).
`pathExists` is `Path(model_path).exists()` and `loadedModel` the result of
`torch.load` when the artifact exists.  On the fresh-model branch the code
sets `training_dataset` to the empty list (line 70, a placeholder under the
comment "load training data"), so `preprocess_input` hands an empty batch to
`scaler.fit_transform`, which raises `ValueError`; were training ever to
succeed, line 76 `self.save_model(self.model)` would raise `TypeError`,
because `save_model(self)` (line 87) accepts no positional argument.
Returns the constructed state together with the number of completed
`__train_model` calls. -/
def pipelineInit (env : TorchEnv) (pathExists : Bool) (loadedModel : TextClassifierModel)
    (model_path bert_model_name : String) (num_numeric_features num_classes : Nat) :
    Except PyErr (PipelineState × Nat) :=
  let mp0 : Option String := if pathExists then some model_path else none
  match mp0 with
  | some p =>
    let st : PipelineState :=
      { model_path := some p, scaler := ScalerState.unfitted,
        loss_fn := initLossFn, model := loadedModel, optimizer := initOptimizer }
    Except.ok (st, 0)
  | none =>
    let model := TextClassifierModel.make env bert_model_name num_numeric_features num_classes
    let st : PipelineState :=
      { model_path := some model_path, scaler := ScalerState.unfitted,
        loss_fn := initLossFn, model := model, optimizer := initOptimizer }
    let training_dataset : List FeaturedText := []
    let labels : List Nat := []
    match TextClassifierPipeline.preprocess_input st training_dataset with
    | Except.error e => Except.error e
    | Except.ok (_st1, text_set, feature_set) =>
      match train_model_run text_set.length feature_set.length labels.length 5 with
      | (_, some e) => Except.error e
      | (_, none) => Except.error PyErr.typeError

/-- Python truthiness defaulting for an optional integer argument, embedding
`if not x: x = d` (src/TextExtractor.py lines 118-121): both `None` and `0`
are falsy, so a passed value of `0` is replaced by the default exactly as an
omitted argument is. -/
def pyOrDefault (v : Option Nat) (d : Nat) : Nat :=
  match v with
  | none => d
  | some n => if n = 0 then d else n

/-- A raw text span of one PDF page as pymupdf reports it inside a text
block (src/TextExtractor.py lines 129-135); image blocks (those without a
"lines" key) are skipped by the source, so a page is modelled as the list of
its text spans in order. -/
structure RawSpan where
  text : String
  size : ℚ
  flags : Int
  bbox : List ℚ
deriving DecidableEq

/-- The dict appended per span by `__pdf_to_text`
(src/TextExtractor.py lines 131-138). -/
structure PdfSpan where
  text : String
  size : ℚ
  flags : Int
  bbox : List ℚ
  len : Nat
  page : Nat
deriving DecidableEq

/-- `TextExtractorPipeline.__pdf_to_text` (src/TextExtractor.py lines
101-145) on a document given as its per-page span lists: default the bounds
with Python truthiness (lines 117-121), slice the document with
`doc[from_page : to_page + 1]` (Python slice: clamped, inclusive of
`from_page`, exclusive of `to_page + 1`), and emit one record per span with
`len` set to the text length and `page` set to `page.number + 1`. -/
def pdf_to_text (doc : List (List RawSpan)) (from_page to_page : Option Nat) :
    List PdfSpan :=
  let last_page_num := doc.length - 1
  let fp := pyOrDefault from_page 0
  let tp := pyOrDefault to_page last_page_num
  ((doc.enum.drop fp).take (tp + 1 - fp)).flatMap (fun pr =>
    pr.2.map (fun span =>
      { text := span.text, size := span.size, flags := span.flags,
        bbox := span.bbox, len := span.text.length, page := pr.1 + 1 }))

/-- The page numbers scanned by the `for page in doc[from_page : to_page + 1]`
loop of `__pdf_to_text`, for a document with `numPages` pages. -/
def pdfPagesScanned (numPages : Nat) (from_page to_page : Option Nat) : List Nat :=
  let fp := pyOrDefault from_page 0
  let tp := pyOrDefault to_page (numPages - 1)
  ((List.range numPages).drop fp).take (tp + 1 - fp)

/-- The filesystem and external-library world seen by
`TextExtractorPipeline.extract`: path existence, file-ness, the lowercased
suffix, PIL's registered picture extensions, and the (already wrapped)
results of the two conversion helpers. -/
structure FSEnv where
  pathExists : String → Bool
  isFile : String → Bool
  suffix : String → String
  pictureExts : List String
  pdfResult : String → Option Nat → Option Nat → Except PyErr (List PdfSpan)
  pictureResult : String → Except PyErr String

/-- `TextExtractorPipeline.__validate_file_path` (src/TextExtractor.py lines
28-53): `FileNotFoundError` when the path does not exist, `IsADirectoryError`
when it is not a file, `UnsupportedExtensionError` when a nonempty expected
set does not contain the suffix. -/
def validate_file_path (env : FSEnv) (file_path : String) (expected_extensions : List String) :
    Except PyErr String :=
  if env.pathExists file_path = false then Except.error PyErr.fileNotFoundError
  else if env.isFile file_path = false then Except.error PyErr.isADirectoryError
  else if expected_extensions ≠ [] ∧ env.suffix file_path ∉ expected_extensions then
    Except.error PyErr.unsupportedExtensionError
  else Except.ok file_path

/-- The result of `TextExtractorPipeline.extract`: PDF spans or OCR text. -/
inductive ExtractOut where
  | pdfSpans (spans : List PdfSpan)
  | ocrText (s : String)
deriving DecidableEq

/-- The `try` body of `TextExtractorPipeline.extract` (src/TextExtractor.py
lines 73-91): build the supported extension set (PIL's picture extensions
plus ".pdf"), validate the path, then dispatch on the suffix. -/
def extractBody (env : FSEnv) (file_path : String) (from_page to_page : Option Nat) :
    Except PyErr ExtractOut :=
  let supported_extensions := env.pictureExts ++ [".pdf"]
  match validate_file_path env file_path supported_extensions with
  | Except.error e => Except.error e
  | Except.ok path =>
    if env.suffix path = ".pdf" then
      match env.pdfResult path from_page to_page with
      | Except.error e => Except.error e
      | Except.ok spans => Except.ok (ExtractOut.pdfSpans spans)
    else if env.suffix path ∈ env.pictureExts then
      match env.pictureResult path with
      | Except.error e => Except.error e
      | Except.ok s => Except.ok (ExtractOut.ocrText s)
    else Except.error PyErr.notImplementedExtensionError

/-- `TextExtractorPipeline.extract` (src/TextExtractor.py lines 56-98): the
`except` clauses re-raise `UnsupportedExtensionError` and
`NotImplementedExtensionError` as `ValueError`, `UnidentifiedImageError` as
`ValueError`, and every other exception — including the
`FileNotFoundError` and `IsADirectoryError` of path validation — as
`RuntimeError`. -/
def extract (env : FSEnv) (file_path : String) (from_page to_page : Option Nat) :
    Except PyErr ExtractOut :=
  match extractBody env file_path from_page to_page with
  | Except.ok v => Except.ok v
  | Except.error PyErr.unsupportedExtensionError => Except.error PyErr.valueError
  | Except.error PyErr.notImplementedExtensionError => Except.error PyErr.valueError
  | Except.error PyErr.unidentifiedImageError => Except.error PyErr.valueError
  | Except.error _ => Except.error PyErr.runtimeError

/-- Modelled from the spec: the windowed mode of
`TextClassifierPipeline.train_model` (spec section 4.4) is part of this
repository but not present under src/ (only the near-duplicate legacy copy
the spec mentions contains it), so it is modelled from the spec's words: one
round "slides a fixed-size window of `batch_window_size` records across the
full dataset in order, calling Training Loop once per window (last window is
truncated to the remaining record count, never reads past the end)".  The
result is the list of per-call windows of one round. -/
def specWindows (W : Nat) (l : List α) : List (List α) :=
  if h : W = 0 ∨ l.isEmpty then []
  else l.take W :: specWindows W (l.drop W)
termination_by l.length
decreasing_by
  push_neg at h
  have hW : 0 < W := Nat.pos_of_ne_zero h.1
  have hl : l ≠ [] := by
    intro hnil
    rw [hnil] at h
    simp at h
  have hlen : 0 < l.length := List.length_pos.mpr hl
  simp only [List.length_drop]
  omega

/-! ### Example fixtures used by concrete evaluations -/

/-- A concrete external torch world: zero initial weights and a zero BERT
embedding of the correct width 768. -/
def exTorchEnv : TorchEnv :=
  { bertPooler := fun _ _ => List.replicate 768 0,
    wEntry := fun _ _ _ _ => 0,
    bEntry := fun _ _ _ => 0 }

def exModelName : String := "bert-base-uncased"

def exModelPath : String := "text_classifier.pt"

def exModel : TextClassifierModel := TextClassifierModel.make exTorchEnv exModelName 7 3

/-- A concrete pipeline state as `__init__` would build it for a fresh
model, before any preprocessing call. -/
def exPipeline : PipelineState :=
  { model_path := some exModelPath, scaler := ScalerState.unfitted,
    loss_fn := initLossFn, model := exModel, optimizer := initOptimizer }

/-- A well-formed FeaturedText record. -/
def exRecord : FeaturedText :=
  { text := some "hello", size := some 10, flags := some 1,
    bbox := some [0, 0, 1, 1], page := some 1 }

/-- The scaler parameters `fit_transform` computes on the batch
`[exRecord]`. -/
def exParams : List (ℚ × ℚ) :=
  [(10, 10), (1, 1), (1, 1), (0, 0), (0, 0), (1, 1), (1, 1)]

/-- `exPipeline` after one `preprocess_input` call on `[exRecord]`. -/
def exPipelineFitted : PipelineState :=
  { exPipeline with scaler := ScalerState.fitted exParams }

/-- A record whose `text` key is absent. -/
def missingTextRec : FeaturedText :=
  { text := none, size := some 10, flags := some 1,
    bbox := some [0, 0, 1, 1], page := some 1 }

/-- A record whose `size` key is absent. -/
def missingSizeRec : FeaturedText :=
  { text := some "x", size := none, flags := some 1,
    bbox := some [0, 0, 1, 1], page := some 1 }

/-- A record whose bbox has 3 components instead of 4. -/
def bbox3Rec : FeaturedText :=
  { text := some "x", size := some 1, flags := some 2,
    bbox := some [0, 1, 2], page := some 3 }

/-- A filesystem in which no path exists. -/
def emptyFS : FSEnv :=
  { pathExists := fun _ => false, isFile := fun _ => false, suffix := fun _ => "",
    pictureExts := [], pdfResult := fun _ _ _ => Except.error PyErr.runtimeError,
    pictureResult := fun _ => Except.error PyErr.runtimeError }

def missingPath : String := "no_such_file.pdf"


/-- Entry (i, j) of a row-major matrix, when present. -/
def rowEntry (M : List (List ℚ)) (i j : Nat) : Option ℚ :=
  match M[i]? with
  | none => none
  | some r => r[j]?

/-- The records of the C4 witness batch. -/
def c4r1 : FeaturedText :=
  { text := some "a", size := some 10, flags := some 1,
    bbox := some [0, 0, 1, 1], page := some 1 }

def c4r2 : FeaturedText :=
  { text := some "b", size := some 12, flags := some 2,
    bbox := some [1, 2, 3, 4], page := some 2 }

/-- The numeric matrix of the C4 witness batch. -/
def c4rows : List (List ℚ) :=
  [[10, 1, 1, 0, 0, 1, 1], [12, 2, 2, 1, 2, 3, 4]]

/-! ### Helper lemmas -/

theorem mapE_ok_length {α β : Type} {f : α → Except PyErr β} :
    ∀ {l : List α} {ys : List β}, mapE f l = Except.ok ys → ys.length = l.length := by
  intro l
  induction l with
  | nil =>
    intro ys h
    simp only [mapE] at h
    cases h
    rfl
  | cons x xs ih =>
    intro ys h
    simp only [mapE] at h
    cases hx : f x with
    | error e => rw [hx] at h; cases h
    | ok y =>
      rw [hx] at h
      cases hxs : mapE f xs with
      | error e => rw [hxs] at h; cases h
      | ok ys0 =>
        rw [hxs] at h
        cases h
        simp [ih hxs]

theorem mapE_forall₂ {α β : Type} {f : α → Except PyErr β} :
    ∀ {l : List α} {ys : List β}, mapE f l = Except.ok ys →
      List.Forall₂ (fun x y => f x = Except.ok y) l ys := by
  intro l
  induction l with
  | nil =>
    intro ys h
    simp only [mapE] at h
    cases h
    exact List.Forall₂.nil
  | cons x xs ih =>
    intro ys h
    simp only [mapE] at h
    cases hx : f x with
    | error e => rw [hx] at h; cases h
    | ok y =>
      rw [hx] at h
      cases hxs : mapE f xs with
      | error e => rw [hxs] at h; cases h
      | ok ys0 =>
        rw [hxs] at h
        cases h
        exact List.Forall₂.cons hx (ih hxs)

theorem mapE_ok_of_forall {α β : Type} {f : α → Except PyErr β} :
    ∀ {l : List α}, (∀ x ∈ l, ∃ y, f x = Except.ok y) →
      ∃ ys, mapE f l = Except.ok ys := by
  intro l
  induction l with
  | nil => intro _; exact ⟨[], rfl⟩
  | cons x xs ih =>
    intro h
    obtain ⟨y, hy⟩ := h x (List.mem_cons_self x xs)
    obtain ⟨ys, hys⟩ := ih (fun a ha => h a (List.mem_cons_of_mem x ha))
    refine ⟨y :: ys, ?_⟩
    simp only [mapE, hy, hys]

theorem mapE_error_of_mem {α β : Type} {f : α → Except PyErr β} {r : α} {e₀ : PyErr} :
    ∀ {l : List α}, r ∈ l → f r = Except.error e₀ →
      ∃ e, mapE f l = Except.error e := by
  intro l
  induction l with
  | nil => intro h; cases h
  | cons x xs ih =>
    intro hmem hr
    cases hx : f x with
    | error e => exact ⟨e, by simp only [mapE, hx]⟩
    | ok y =>
      rcases List.mem_cons.mp hmem with heq | htail
      · rw [heq] at hr
        rw [hx] at hr
        cases hr
      · obtain ⟨e, he⟩ := ih htail hr
        exact ⟨e, by simp only [mapE, hx, he]⟩

theorem mapE_error_const {α β : Type} {f : α → Except PyErr β} {c : PyErr}
    (hf : ∀ x e, f x = Except.error e → e = c) :
    ∀ {l : List α} {e : PyErr}, mapE f l = Except.error e → e = c := by
  intro l
  induction l with
  | nil =>
    intro e h
    simp [mapE] at h
  | cons x xs ih =>
    intro e h
    simp only [mapE] at h
    cases hx : f x with
    | error e1 =>
      rw [hx] at h
      cases h
      exact hf x e hx
    | ok y =>
      rw [hx] at h
      cases hxs : mapE f xs with
      | error e2 =>
        rw [hxs] at h
        cases h
        exact ih hxs
      | ok ys => rw [hxs] at h; cases h

theorem listMin_le : ∀ {l : List ℚ} {a : ℚ}, a ∈ l → listMin l ≤ a := by
  intro l
  induction l with
  | nil => intro a h; cases h
  | cons x xs ih =>
    intro a h
    cases xs with
    | nil =>
      rcases List.mem_cons.mp h with heq | htail
      · rw [heq]; exact le_refl _
      · cases htail
    | cons y ys =>
      rcases List.mem_cons.mp h with heq | htail
      · rw [heq]
        exact min_le_left _ _
      · exact le_trans (min_le_right _ _) (ih htail)

theorem le_listMax : ∀ {l : List ℚ} {a : ℚ}, a ∈ l → a ≤ listMax l := by
  intro l
  induction l with
  | nil => intro a h; cases h
  | cons x xs ih =>
    intro a h
    cases xs with
    | nil =>
      rcases List.mem_cons.mp h with heq | htail
      · rw [heq]; exact le_refl _
      · cases htail
    | cons y ys =>
      rcases List.mem_cons.mp h with heq | htail
      · rw [heq]
        exact le_max_left _ _
      · exact le_trans (ih htail) (le_max_right _ _)

theorem listMax_mem : ∀ {l : List ℚ}, l ≠ [] → listMax l ∈ l := by
  intro l
  induction l with
  | nil => intro h; exact absurd rfl h
  | cons x xs ih =>
    intro _
    cases xs with
    | nil => exact List.mem_singleton.mpr rfl
    | cons y ys =>
      rcases max_choice x (listMax (y :: ys)) with hc | hc
      · rw [show listMax (x :: y :: ys) = max x (listMax (y :: ys)) from rfl, hc]
        exact List.mem_cons_self _ _
      · rw [show listMax (x :: y :: ys) = max x (listMax (y :: ys)) from rfl, hc]
        exact List.mem_cons_of_mem x (ih (by simp))

theorem listMin_lt_listMax {l : List ℚ} {x y : ℚ} (hx : x ∈ l) (hy : y ∈ l)
    (hne : x ≠ y) : listMin l < listMax l := by
  rcases lt_or_gt_of_ne hne with hlt | hgt
  · exact lt_of_le_of_lt (listMin_le hx) (lt_of_lt_of_le hlt (le_listMax hy))
  · exact lt_of_le_of_lt (listMin_le hy) (lt_of_lt_of_le hgt (le_listMax hx))

theorem argmaxIdx_lt_length {l : List ℚ} (h : l ≠ []) : argmaxIdx l < l.length :=
  List.indexOf_lt_length.mpr (listMax_mem h)

theorem numericRow_ok_iff {r : FeaturedText} {row : List ℚ} :
    numericRow r = Except.ok row ↔
      ∃ s f p bb, r.size = some s ∧ r.flags = some f ∧ r.page = some p ∧
        r.bbox = some bb ∧ row = [s, f, p] ++ bb := by
  constructor
  · intro h
    cases hs : r.size with
    | none => simp [numericRow, hs] at h
    | some s =>
      cases hf : r.flags with
      | none => simp [numericRow, hs, hf] at h
      | some f =>
        cases hp : r.page with
        | none => simp [numericRow, hs, hf, hp] at h
        | some p =>
          cases hb : r.bbox with
          | none => simp [numericRow, hs, hf, hp, hb] at h
          | some bb =>
            simp only [numericRow, hs, hf, hp, hb, Except.ok.injEq] at h
            exact ⟨s, f, p, bb, rfl, rfl, rfl, rfl, h.symm⟩
  · rintro ⟨s, f, p, bb, hs, hf, hp, hb, hrow⟩
    simp [numericRow, hs, hf, hp, hb, hrow]

theorem numericRow_error_only_keyError {r : FeaturedText} {e : PyErr}
    (h : numericRow r = Except.error e) : e = PyErr.keyError := by
  cases hs : r.size <;> cases hf : r.flags <;> cases hp : r.page <;> cases hb : r.bbox <;>
    simp [numericRow, hs, hf, hp, hb] at h <;> try exact h.symm

theorem numericRow_error_of_missing {r : FeaturedText}
    (htext : r.text.isSome) (h : r.hasAllFields = false) :
    numericRow r = Except.error PyErr.keyError := by
  simp only [FeaturedText.hasAllFields, Bool.and_eq_false_iff] at h
  cases hs : r.size with
  | none => simp [numericRow, hs]
  | some s =>
    cases hf : r.flags with
    | none => simp [numericRow, hs, hf]
    | some f =>
      cases hp : r.page with
      | none => simp [numericRow, hs, hf, hp]
      | some p =>
        cases hb : r.bbox with
        | none => simp [numericRow, hs, hf, hp, hb]
        | some bb =>
          exfalso
          rcases h with ((((h1 | h2) | h3) | h4) | h5)
          · rw [htext] at h1; cases h1
          · rw [hs] at h2; simp at h2
          · rw [hf] at h3; simp at h3
          · rw [hb] at h4; simp at h4
          · rw [hp] at h5; simp at h5

theorem specWindows_nil (W : Nat) : specWindows W ([] : List α) = [] := by
  rw [specWindows]
  simp

theorem specWindows_cons (W : Nat) (l : List α) (hW : W ≠ 0) (hl : l ≠ []) :
    specWindows W l = l.take W :: specWindows W (l.drop W) := by
  rw [specWindows]
  rw [dif_neg]
  simp [hW, hl]

theorem specWindows_flatten (W : Nat) (hW : 0 < W) :
    ∀ l : List α, (specWindows W l).flatten = l := by
  intro l
  induction l using specWindows.induct W with
  | case1 l hc =>
    rcases hc with hc | hc
    · exact absurd hc (Nat.pos_iff_ne_zero.mp hW)
    · rw [List.isEmpty_iff.mp hc, specWindows_nil]
      rfl
  | case2 l hc ih =>
    push_neg at hc
    have hl : l ≠ [] := by
      intro hnil
      rw [hnil] at hc
      simp at hc
    rw [specWindows_cons W l hc.1 hl, List.flatten_cons, ih]
    exact List.take_append_drop W l

theorem specWindows_length (W : Nat) (hW : 0 < W) :
    ∀ l : List α, (specWindows W l).length = (l.length + W - 1) / W := by
  intro l
  induction l using specWindows.induct W with
  | case1 l hc =>
    rcases hc with hc | hc
    · exact absurd hc (Nat.pos_iff_ne_zero.mp hW)
    · rw [List.isEmpty_iff.mp hc, specWindows_nil]
      simp only [List.length_nil, Nat.zero_add]
      exact (Nat.div_eq_of_lt (by omega)).symm
  | case2 l hc ih =>
    push_neg at hc
    have hl : l ≠ [] := by
      intro hnil
      rw [hnil] at hc
      simp at hc
    have hD : 1 ≤ l.length := List.length_pos.mpr hl
    rw [specWindows_cons W l hc.1 hl]
    simp only [List.length_cons, ih, List.length_drop]
    rcases le_or_lt W l.length with hWD | hDW
    · have h1 : l.length - W + W - 1 = l.length - 1 := by omega
      have h2 : l.length + W - 1 = (l.length - 1) + W := by omega
      rw [h1, h2, Nat.add_div_right _ hW]
    · have h1 : l.length - W + W - 1 = W - 1 := by omega
      have h2 : l.length + W - 1 = (l.length - 1) + W := by omega
      rw [h1, h2, Nat.add_div_right _ hW, Nat.div_eq_of_lt (by omega),
        Nat.div_eq_of_lt (by omega)]

theorem specWindows_getLast (W : Nat) (hW : 0 < W) :
    ∀ l : List α, l ≠ [] →
      ∃ lw, (specWindows W l).getLast? = some lw ∧
        lw.length = (if l.length % W = 0 then W else l.length % W) := by
  intro l
  induction l using specWindows.induct W with
  | case1 l hc =>
    intro hl
    rcases hc with hc | hc
    · exact absurd hc (Nat.pos_iff_ne_zero.mp hW)
    · exact absurd (List.isEmpty_iff.mp hc) hl
  | case2 l hc ih =>
    intro hl
    push_neg at hc
    have hD : 1 ≤ l.length := List.length_pos.mpr hl
    rw [specWindows_cons W l hc.1 hl]
    cases hdrop : l.drop W with
    | nil =>
      have hDW : l.length ≤ W := List.drop_eq_nil_iff.mp hdrop
      refine ⟨l.take W, ?_, ?_⟩
      · rw [specWindows_nil]
        rfl
      · rw [List.length_take, Nat.min_eq_right hDW]
        rcases eq_or_lt_of_le hDW with heq | hlt
        · rw [heq, Nat.mod_self, if_pos rfl]
        · rw [Nat.mod_eq_of_lt hlt, if_neg (by omega)]
    | cons d ds =>
      have hdropne : l.drop W ≠ [] := by
        rw [hdrop]
        exact List.cons_ne_nil d ds
      have hWD : W ≤ l.length := by
        by_contra hcon
        push_neg at hcon
        exact hdropne (List.drop_eq_nil_iff.mpr (Nat.le_of_lt hcon))
      obtain ⟨lw, hlast, hlen⟩ := ih hdropne
      refine ⟨lw, ?_, ?_⟩
      · rw [← hdrop, specWindows_cons W (l.drop W) hc.1 hdropne]
        rw [specWindows_cons W (l.drop W) hc.1 hdropne] at hlast
        rw [List.getLast?_cons_cons]
        exact hlast
      · rw [hlen, List.length_drop, ← Nat.mod_eq_sub_mod hWD]

theorem specWindows_width (W : Nat) :
    ∀ l : List α, ∀ w ∈ specWindows W l, w.length ≤ W := by
  intro l
  induction l using specWindows.induct W with
  | case1 l hc =>
    intro w hw
    rcases hc with hc | hc
    · rw [hc] at hw
      rw [specWindows] at hw
      simp at hw
    · rw [List.isEmpty_iff.mp hc, specWindows_nil] at hw
      cases hw
  | case2 l hc ih =>
    intro w hw
    push_neg at hc
    have hl : l ≠ [] := by
      intro hnil
      rw [hnil] at hc
      simp at hc
    rw [specWindows_cons W l hc.1 hl] at hw
    rcases List.mem_cons.mp hw with heq | htail
    · rw [heq, List.length_take]
      exact Nat.min_le_left _ _
    · exact ih w htail

theorem mapE_ok_mem {α β : Type} {f : α → Except PyErr β} :
    ∀ {l : List α} {ys : List β}, mapE f l = Except.ok ys →
      ∀ {x : α}, x ∈ l → ∃ y, f x = Except.ok y := by
  intro l
  induction l with
  | nil => intro ys _ x hx; cases hx
  | cons a as ih =>
    intro ys h x hx
    simp only [mapE] at h
    cases ha : f a with
    | error e => rw [ha] at h; cases h
    | ok y =>
      rw [ha] at h
      cases has : mapE f as with
      | error e => rw [has] at h; cases h
      | ok ys0 =>
        rcases List.mem_cons.mp hx with heq | htail
        · exact ⟨y, by rw [heq]; exact ha⟩
        · exact ih has htail

theorem pyGet_error_only_keyError {α : Type} {v : Option α} {e : PyErr}
    (h : pyGet v = Except.error e) : e = PyErr.keyError := by
  cases v with
  | some x => simp [pyGet] at h
  | none =>
    simp only [pyGet, Except.error.injEq] at h
    exact h.symm

theorem preprocessCore_ok_inv {b : List FeaturedText} {p : List (ℚ × ℚ)}
    {td : List String} {nf : List (List ℚ)}
    (h : preprocessCore b = Except.ok (p, td, nf)) :
    mapE (fun fte => pyGet fte.text) b = Except.ok td ∧
    ∃ rows, numericMatrix b = Except.ok rows ∧
      MinMaxScaler.fitParams rows = Except.ok p ∧
      nf = rows.map (fun r => List.zipWith minmaxScale p r) := by
  unfold preprocessCore at h
  split at h
  next heq => cases h
  next td0 heq =>
    split at h
    next heq2 => cases h
    next rows heq2 =>
      split at h
      next heq3 => cases h
      next p0 nf0 heq3 =>
        cases h
        refine ⟨heq, rows, heq2, ?_, ?_⟩
        · unfold MinMaxScaler.fit_transform at heq3
          split at heq3
          next h4 => cases heq3
          next params h4 =>
            simp only [Except.ok.injEq, Prod.mk.injEq] at heq3
            rw [← heq3.1]
            exact h4
        · unfold MinMaxScaler.fit_transform at heq3
          split at heq3
          next h4 => cases heq3
          next params h4 =>
            simp only [Except.ok.injEq, Prod.mk.injEq] at heq3
            rw [← heq3.2, ← heq3.1]

theorem preprocessCore_eq_ok {b : List FeaturedText} {td : List String}
    {rows : List (List ℚ)} {p : List (ℚ × ℚ)}
    (h1 : mapE (fun fte => pyGet fte.text) b = Except.ok td)
    (h2 : numericMatrix b = Except.ok rows)
    (h3 : MinMaxScaler.fitParams rows = Except.ok p) :
    preprocessCore b =
      Except.ok (p, td, rows.map (fun r => List.zipWith minmaxScale p r)) := by
  have hft : MinMaxScaler.fit_transform rows =
      Except.ok (p, rows.map (fun r => List.zipWith minmaxScale p r)) := by
    unfold MinMaxScaler.fit_transform
    rw [h3]
  unfold preprocessCore
  simp only [h1, h2, hft]

theorem preprocess_input_of_core {st : PipelineState} {b : List FeaturedText}
    {p : List (ℚ × ℚ)} {td : List String} {nf : List (List ℚ)}
    (h : preprocessCore b = Except.ok (p, td, nf)) :
    TextClassifierPipeline.preprocess_input st b =
      Except.ok ({ st with scaler := ScalerState.fitted p }, td, nf) := by
  unfold TextClassifierPipeline.preprocess_input
  rw [h]

theorem preprocess_input_error {st : PipelineState} {b : List FeaturedText} {e : PyErr}
    (h : preprocessCore b = Except.error e) :
    TextClassifierPipeline.preprocess_input st b = Except.error e := by
  unfold TextClassifierPipeline.preprocess_input
  rw [h]

theorem preprocess_input_ok_inv {st st' : PipelineState} {b : List FeaturedText}
    {td : List String} {nf : List (List ℚ)}
    (h : TextClassifierPipeline.preprocess_input st b = Except.ok (st', td, nf)) :
    ∃ p, preprocessCore b = Except.ok (p, td, nf) ∧
      st' = { st with scaler := ScalerState.fitted p } := by
  unfold TextClassifierPipeline.preprocess_input at h
  split at h
  next heq => cases h
  next p td0 nf0 heq =>
    cases h
    exact ⟨p, heq, rfl⟩

/-! ### Claim theorems -/

/-- Claim C1 (code bug).  The claim says constructing `TextClassifierPipeline`
with a nonexistent model path yields a freshly initialized model, trained at
least once and persisted before the constructor returns.  The code cannot do
this: the bundled training dataset is the empty-list placeholder of line 70,
so `preprocess_input` hands an empty batch to `scaler.fit_transform`, which
raises `ValueError` and aborts construction before any training step or save
(and the save call itself, `self.save_model(self.model)` on line 76, would
raise `TypeError`, since `save_model(self)` on line 87 accepts no argument).
Constructing against an existing path does load the persisted model with no
training, as the claim says. -/
theorem c1_construction (env : TorchEnv) (loadedModel : TextClassifierModel)
    (model_path bert_model_name : String) (nf nc : Nat) :
    pipelineInit env false loadedModel model_path bert_model_name nf nc =
      Except.error PyErr.valueError ∧
    ∃ st, pipelineInit env true loadedModel model_path bert_model_name nf nc =
      Except.ok (st, 0) ∧ st.model = loadedModel ∧ st.model_path = some model_path := by
  refine ⟨rfl, ?_⟩
  exact ⟨_, rfl, rfl, rfl⟩

/-- Counterexample to claim C2.  `preprocess_input` does have a side effect
on the pipeline object: it refits `self.scaler`, the single scaler instance
created at construction (line 55) and shared by all calls, so the state
after the call differs from the state before it. -/
theorem c2_counterexample :
    (∃ td nf, TextClassifierPipeline.preprocess_input exPipeline [exRecord] =
      Except.ok (exPipelineFitted, td, nf)) ∧
    exPipelineFitted.scaler ≠ exPipeline.scaler := by
  constructor
  · exact ⟨_, _, rfl⟩
  · decide

/-- Claim C2 amended: each `preprocess_input` call refits the pipeline's
single shared `self.scaler` from scratch on its own batch, so its outcome
(returned texts and normalized matrix, or the raised error) depends only on
the batch and not on any scaler state carried in — fitted parameters are
never reused across calls; however the scaler is shared mutable state on the
pipeline object: the call mutates the scaler field (to the parameters fitted
on this batch) and leaves every other field unchanged. -/
theorem c2_amended (s₁ s₂ : PipelineState) (b : List FeaturedText) :
    Except.map (fun r => r.2) (TextClassifierPipeline.preprocess_input s₁ b) =
      Except.map (fun r => r.2) (TextClassifierPipeline.preprocess_input s₂ b) ∧
    (∀ st' out, TextClassifierPipeline.preprocess_input s₁ b = Except.ok (st', out) →
      st'.model_path = s₁.model_path ∧ st'.loss_fn = s₁.loss_fn ∧
      st'.model = s₁.model ∧ st'.optimizer = s₁.optimizer ∧
      ∃ rows p, numericMatrix b = Except.ok rows ∧
        MinMaxScaler.fitParams rows = Except.ok p ∧
        st'.scaler = ScalerState.fitted p) := by
  constructor
  · unfold TextClassifierPipeline.preprocess_input
    cases preprocessCore b with
    | error e => rfl
    | ok pr =>
      obtain ⟨p, td, nf⟩ := pr
      rfl
  · intro st' out h
    obtain ⟨td, nf⟩ := out
    obtain ⟨p, hcore, hst⟩ := preprocess_input_ok_inv h
    subst hst
    obtain ⟨htd, rows, hrows, hfp, hnf⟩ := preprocessCore_ok_inv hcore
    exact ⟨rfl, rfl, rfl, rfl, rows, p, hrows, hfp, rfl⟩

/-- Witness for the amended claim C2, at a concrete pipeline state and
one-record batch. -/
theorem c2_amended_witness :
    exPipelineFitted.model_path = exPipeline.model_path ∧
    exPipelineFitted.loss_fn = exPipeline.loss_fn ∧
    exPipelineFitted.model = exPipeline.model ∧
    exPipelineFitted.optimizer = exPipeline.optimizer ∧
    ∃ rows p, numericMatrix [exRecord] = Except.ok rows ∧
      MinMaxScaler.fitParams rows = Except.ok p ∧
      exPipelineFitted.scaler = ScalerState.fitted p :=
  (c2_amended exPipeline exPipeline [exRecord]).2 exPipelineFitted _ rfl

/-- Claim C3 (modelled from the spec, since `train_model` is not under src/).
One windowed round over a nonempty dataset of size D with window size W > 0
issues exactly `ceil(D / W) = (D + W - 1) / W` training-step calls (one per
window), the concatenation of the windows is exactly the dataset (every
record in exactly one window, in order, never past the end), no window is
longer than W, and the final window has `D mod W` records (or W when W
divides D). -/
theorem c3_windowed_round {α : Type} (W : Nat) (l : List α) (hW : 0 < W) (hl : l ≠ []) :
    (specWindows W l).length = (l.length + W - 1) / W ∧
    (specWindows W l).flatten = l ∧
    (∀ w ∈ specWindows W l, w.length ≤ W) ∧
    ∃ lw, (specWindows W l).getLast? = some lw ∧
      lw.length = (if l.length % W = 0 then W else l.length % W) :=
  ⟨specWindows_length W hW l, specWindows_flatten W hW l,
    specWindows_width W l, specWindows_getLast W hW l hl⟩

/-- Witness for claim C3 at window size 2 and a dataset of 3 records. -/
theorem c3_windowed_round_witness :
    (specWindows 2 ([0, 1, 2] : List Nat)).length = 2 ∧
    (specWindows 2 ([0, 1, 2] : List Nat)).flatten = [0, 1, 2] ∧
    (∀ w ∈ specWindows 2 ([0, 1, 2] : List Nat), w.length ≤ 2) ∧
    ∃ lw, (specWindows 2 ([0, 1, 2] : List Nat)).getLast? = some lw ∧ lw.length = 1 :=
  c3_windowed_round 2 [0, 1, 2] (by decide) (by decide)

/-- Counterexample to claim C6.  A training call whose label count (3)
differs from the text batch size (2) does fail — the loss function rejects
the batch — but with the underlying library's `ValueError`, not with
`ShapeMismatchError`: no such class exists anywhere in the source. -/
theorem c6_counterexample :
    (train_model_run 2 2 3 5).2 = some PyErr.valueError ∧
    some PyErr.valueError ≠ some PyErr.shapeMismatchError := by
  constructor
  · rfl
  · decide

/-- Claim C6 amended: when the label count differs from the text batch size
or the numeric matrix row count differs from the batch size, the training
call fails — with the underlying library's shape error (`torch.cat` runtime
error, or the loss function's `ValueError`), not with `ShapeMismatchError`,
which the source never defines — and no optimizer step is applied. -/
theorem c6_amended (textLen numRows labelLen epochs : Nat) (hE : 0 < epochs)
    (h : labelLen ≠ textLen ∨ numRows ≠ textLen) :
    ∃ e, (train_model_run textLen numRows labelLen epochs).2 = some e ∧
      e ≠ PyErr.shapeMismatchError ∧
      TrainEvent.optStep ∉ (train_model_run textLen numRows labelLen epochs).1 := by
  cases epochs with
  | zero => exact absurd hE (lt_irrefl 0)
  | succ n =>
    by_cases htn : textLen = numRows
    · subst htn
      have hll : labelLen ≠ textLen := by
        rcases h with h1 | h2
        · exact h1
        · exact absurd rfl h2
      refine ⟨PyErr.valueError, ?_, by decide, ?_⟩
      · simp [train_model_run, runEpoch, hll]
      · simp [train_model_run, runEpoch, hll]
    · have htn2 : ¬ textLen = numRows := htn
      refine ⟨PyErr.torchRuntimeError, ?_, by decide, ?_⟩
      · simp [train_model_run, runEpoch, htn2]
      · simp [train_model_run, runEpoch, htn2]

/-- Witness for the amended claim C6: 2 texts, 2 numeric rows, 3 labels,
5 epochs. -/
theorem c6_amended_witness :
    ∃ e, (train_model_run 2 2 3 5).2 = some e ∧
      e ≠ PyErr.shapeMismatchError ∧
      TrainEvent.optStep ∉ (train_model_run 2 2 3 5).1 :=
  c6_amended 2 2 3 5 (by decide) (Or.inl (by decide))

/-- Counterexample to claim C7.  A batch containing a record whose required
`text` field is missing makes `preprocess_input` fail with Python's
`KeyError` (raised by the dict access `fte['text']`), not with
`InvalidFeatureError`: no such class exists anywhere in the source. -/
theorem c7_counterexample :
    TextClassifierPipeline.preprocess_input exPipeline [missingTextRec] =
      Except.error PyErr.keyError ∧
    PyErr.keyError ≠ PyErr.invalidFeatureError := by
  constructor
  · rfl
  · decide

/-- Claim C7 amended: `preprocess_input` performs no validation of its own.
A record missing any of the required fields (text, size, flags, bbox, page)
makes the call fail with `KeyError` from the dict access, not
`InvalidFeatureError`; and a bbox that does not have exactly 4 components is
not detected at all — a batch whose bboxes all have 3 components
preprocesses without error. -/
theorem c7_amended :
    (∀ st b r, r ∈ b → FeaturedText.hasAllFields r = false →
      TextClassifierPipeline.preprocess_input st b = Except.error PyErr.keyError) ∧
    (∃ st' td nf, TextClassifierPipeline.preprocess_input exPipeline [bbox3Rec] =
      Except.ok (st', td, nf)) := by
  constructor
  · intro st b r hr hmiss
    apply preprocess_input_error
    cases htd : mapE (fun fte => pyGet fte.text) b with
    | error e =>
      have he := mapE_error_const (fun x e0 hx => pyGet_error_only_keyError hx) htd
      rw [he] at htd
      unfold preprocessCore
      rw [htd]
    | ok td =>
      have htext : r.text.isSome := by
        obtain ⟨y, hy⟩ := mapE_ok_mem htd hr
        cases hx0 : r.text with
        | none => rw [hx0] at hy; simp [pyGet] at hy
        | some t => rfl
      have hrow : numericRow r = Except.error PyErr.keyError :=
        numericRow_error_of_missing htext hmiss
      obtain ⟨e, he⟩ := mapE_error_of_mem hr hrow
      have he2 : e = PyErr.keyError :=
        mapE_error_const (fun x e0 hx => numericRow_error_only_keyError hx) he
      rw [he2] at he
      have hnm : numericMatrix b = Except.error PyErr.keyError := he
      unfold preprocessCore
      rw [htd, hnm]
  · exact ⟨_, _, _, rfl⟩

/-- Witness for the amended claim C7: a batch with one record whose `size`
key is absent fails with `KeyError`. -/
theorem c7_amended_witness :
    TextClassifierPipeline.preprocess_input exPipeline [missingSizeRec] =
      Except.error PyErr.keyError :=
  c7_amended.1 exPipeline [missingSizeRec] missingSizeRec (by decide) (by decide)

/-- Claim C8: for matching batch shapes, a training call with epoch count E
runs exactly E sequential iterations with no early stopping, each iteration
performing, in the source's order, the forward pass, the cross-entropy loss
(the pipeline's loss function is `nn.CrossEntropyLoss`, line 56), the
clearing of accumulated gradients, the backpropagation, and exactly one
optimizer step; the optimizer is Adam (adaptive) with fixed learning rate
1e-4 (line 67). -/
theorem c8_training_loop (n epochs : Nat) :
    train_model_run n n n epochs =
      ((List.replicate epochs [TrainEvent.forward, TrainEvent.lossCE, TrainEvent.zeroGrad,
        TrainEvent.backward, TrainEvent.optStep]).flatten, none) ∧
    (train_model_run n n n epochs).1.count TrainEvent.optStep = epochs ∧
    initLossFn = LossKind.crossEntropy ∧
    initOptimizer = { kind := OptimKind.adam, lr := 1 / 10000 } := by
  have hep : runEpoch n n n =
      ([TrainEvent.forward, TrainEvent.lossCE, TrainEvent.zeroGrad,
        TrainEvent.backward, TrainEvent.optStep], none) := by
    simp [runEpoch]
  have hrun : ∀ m : Nat, train_model_run n n n m =
      ((List.replicate m [TrainEvent.forward, TrainEvent.lossCE, TrainEvent.zeroGrad,
        TrainEvent.backward, TrainEvent.optStep]).flatten, none) := by
    intro m
    induction m with
    | zero => rfl
    | succ k ih =>
      simp only [train_model_run, hep, ih, List.replicate_succ, List.flatten_cons]
  have hcount : List.count TrainEvent.optStep
      [TrainEvent.forward, TrainEvent.lossCE, TrainEvent.zeroGrad,
        TrainEvent.backward, TrainEvent.optStep] = 1 := rfl
  refine ⟨hrun epochs, ?_, rfl, rfl⟩
  rw [hrun epochs]
  simp [List.count_flatten, List.map_replicate, List.sum_replicate, hcount]

/-- Claim C9 (code bug).  The claim says the page bounds of `extract` are
inclusive on both ends, including when a bound is 0.  But `__pdf_to_text`
defaults its bounds with Python truthiness (`if not to_page:` on line 120),
and 0 is falsy, so `to_page = 0` is replaced by the last page number and the
whole rest of the document is read instead of page 0 alone.  On a 2-page
document, asking for pages 0..0 returns the spans of both pages.  For
nonzero bounds the behavior is inclusive as claimed, and omitted bounds
cover the full document. -/
theorem c9_to_page_zero_reads_all :
    pdf_to_text
        [[{ text := "a", size := 10, flags := 0, bbox := [0, 0, 1, 1] }],
         [{ text := "b", size := 12, flags := 1, bbox := [2, 2, 3, 3] }]]
        none (some 0) =
      [{ text := "a", size := 10, flags := 0, bbox := [0, 0, 1, 1], len := 1, page := 1 },
       { text := "b", size := 12, flags := 1, bbox := [2, 2, 3, 3], len := 1, page := 2 }] ∧
    pdfPagesScanned 2 none (some 0) = [0, 1] ∧
    pdfPagesScanned 2 none none = [0, 1] ∧
    pdfPagesScanned 3 (some 1) (some 1) = [1] := by
  refine ⟨?_, rfl, rfl, rfl⟩
  rfl

/-- Claim C10: for a path that does not refer to an existing file, `extract`
raises `RuntimeError`, not `FileNotFoundError`: the `FileNotFoundError`
raised by `__validate_file_path` is caught by the final generic
`except Exception` clause of `extract` and re-raised as `RuntimeError`. -/
theorem c10_extract_missing_file (env : FSEnv) (file_path : String)
    (from_page to_page : Option Nat) (h : env.pathExists file_path = false) :
    extract env file_path from_page to_page = Except.error PyErr.runtimeError := by
  unfold extract extractBody validate_file_path
  rw [h]
  simp

/-- Witness for claim C10 on a concrete missing path. -/
theorem c10_extract_missing_file_witness :
    extract emptyFS missingPath none none = Except.error PyErr.runtimeError :=
  c10_extract_missing_file emptyFS missingPath none none rfl

theorem exceptMap_ok_inv {α β : Type} {f : α → β} {x : Except PyErr α} {v : β}
    (h : Except.map f x = Except.ok v) : ∃ v0, x = Except.ok v0 ∧ v = f v0 := by
  cases x with
  | error e => simp [Except.map] at h
  | ok v0 =>
    simp only [Except.map, Except.ok.injEq] at h
    exact ⟨v0, rfl, h.symm⟩

theorem mapE_ok_mem_right {α β : Type} {f : α → Except PyErr β} :
    ∀ {l : List α} {ys : List β}, mapE f l = Except.ok ys →
      ∀ {y : β}, y ∈ ys → ∃ x ∈ l, f x = Except.ok y := by
  intro l
  induction l with
  | nil =>
    intro ys h y hy
    simp only [mapE] at h
    cases h
    cases hy
  | cons a as ih =>
    intro ys h y hy
    simp only [mapE] at h
    cases ha : f a with
    | error e => rw [ha] at h; cases h
    | ok y0 =>
      rw [ha] at h
      cases has : mapE f as with
      | error e => rw [has] at h; cases h
      | ok ys0 =>
        rw [has] at h
        cases h
        rcases List.mem_cons.mp hy with heq | htail
        · exact ⟨a, List.mem_cons_self a as, by rw [← heq] at ha; exact ha⟩
        · obtain ⟨x, hx, hfx⟩ := ih has htail
          exact ⟨x, List.mem_cons_of_mem a hx, hfx⟩

theorem mem_zipWith {α β γ : Type} {f : α → β → γ} :
    ∀ {l1 : List α} {l2 : List β} {c : γ}, c ∈ List.zipWith f l1 l2 →
      ∃ a ∈ l1, ∃ b ∈ l2, c = f a b := by
  intro l1
  induction l1 with
  | nil => intro l2 c h; simp at h
  | cons a as ih =>
    intro l2 c h
    cases l2 with
    | nil => simp at h
    | cons b bs =>
      rw [List.zipWith_cons_cons] at h
      rcases List.mem_cons.mp h with heq | ht
      · exact ⟨a, List.mem_cons_self a as, b, List.mem_cons_self b bs, heq⟩
      · obtain ⟨a0, ha0, b0, hb0, hc⟩ := ih ht
        exact ⟨a0, List.mem_cons_of_mem a ha0, b0, List.mem_cons_of_mem b hb0, hc⟩

theorem nnLinear_apply_ok (env : TorchEnv) (inF outF : Nat) (x : List ℚ)
    (hx : x.length = inF) :
    ∃ v, (nnLinear env inF outF).apply x = Except.ok v ∧ v.length = outF := by
  unfold LinearLayer.apply
  simp only [nnLinear]
  rw [if_pos hx]
  refine ⟨_, rfl, ?_⟩
  simp [List.length_zipWith, List.length_map, List.length_range]

/-- Shape guarantee of the forward pass of a freshly constructed model: with
a 768-wide text encoder and numeric rows of the declared width, `forward`
returns one row of `num_classes` logits per input example. -/
theorem forward_shapes (env : TorchEnv) (bname : String) (nfeat nc : Nat)
    (text_data : List String) (numeric_features : List (List ℚ))
    (hbert : ∀ s, (env.bertPooler bname s).length = 768)
    (hlen : numeric_features.length = text_data.length)
    (hw : ∀ r ∈ numeric_features, r.length = nfeat) :
    ∃ logits,
      (TextClassifierModel.make env bname nfeat nc).forward text_data numeric_features =
        Except.ok logits ∧
      logits.length = text_data.length ∧ ∀ r ∈ logits, r.length = nc := by
  have hm1 : (TextClassifierModel.make env bname nfeat nc).numeric_features_layer =
      nnLinear env nfeat 128 := rfl
  have hm2 : (TextClassifierModel.make env bname nfeat nc).combined_layer =
      nnLinear env (768 + 128) 256 := rfl
  have hm3 : (TextClassifierModel.make env bname nfeat nc).output_layer =
      nnLinear env 256 nc := rfl
  have hmb : (TextClassifierModel.make env bname nfeat nc).bert = env.bertPooler bname := rfl
  -- the numeric branch succeeds on every row, producing 128-wide vectors
  have hnum : ∀ r ∈ numeric_features, ∃ v,
      Except.map (List.map reluQ)
        ((TextClassifierModel.make env bname nfeat nc).numeric_features_layer.apply r) =
        Except.ok v ∧ v.length = 128 := by
    intro r hr
    obtain ⟨v0, hv0, hl0⟩ := nnLinear_apply_ok env nfeat 128 r (hw r hr)
    refine ⟨v0.map reluQ, ?_, ?_⟩
    · rw [hm1, hv0]
      rfl
    · rw [List.length_map, hl0]
  obtain ⟨nt, hnt⟩ := mapE_ok_of_forall (fun r hr => ⟨(hnum r hr).choose, (hnum r hr).choose_spec.1⟩)
  have hntlen : nt.length = numeric_features.length := mapE_ok_length hnt
  have hntw : ∀ v ∈ nt, v.length = 128 := by
    intro v hv
    obtain ⟨r, hr, hfr⟩ := mapE_ok_mem_right hnt hv
    obtain ⟨v0, hv0, hveq⟩ := exceptMap_ok_inv hfr
    obtain ⟨v1, hv1, hl1⟩ := nnLinear_apply_ok env nfeat 128 r (hw r hr)
    rw [hm1] at hv0
    rw [hv0] at hv1
    cases hv1
    rw [hveq, List.length_map]
    exact hl1
  -- the text branch
  have hbolen : (List.map (TextClassifierModel.make env bname nfeat nc).bert text_data).length =
      text_data.length := List.length_map _ _
  have hbow : ∀ a ∈ List.map (TextClassifierModel.make env bname nfeat nc).bert text_data,
      a.length = 768 := by
    intro a ha
    obtain ⟨s, _, hs⟩ := List.mem_map.mp ha
    rw [← hs, hmb]
    exact hbert s
  -- the fused head succeeds on every concatenated row
  have hcat : ∀ c ∈ List.zipWith (fun a b => a ++ b)
      (List.map (TextClassifierModel.make env bname nfeat nc).bert text_data) nt,
      c.length = 768 + 128 := by
    intro c hc
    obtain ⟨a, ha, v, hv, hceq⟩ := mem_zipWith hc
    rw [hceq, List.length_append, hbow a ha, hntw v hv]
  have hhead : ∀ c ∈ List.zipWith (fun a b => a ++ b)
      (List.map (TextClassifierModel.make env bname nfeat nc).bert text_data) nt, ∃ y,
      (match (TextClassifierModel.make env bname nfeat nc).combined_layer.apply c with
        | Except.error e => Except.error e
        | Except.ok v =>
          (TextClassifierModel.make env bname nfeat nc).output_layer.apply (v.map reluQ)) =
        Except.ok y ∧ y.length = nc := by
    intro c hc
    obtain ⟨v, hv, hlv⟩ := nnLinear_apply_ok env (768 + 128) 256 c (hcat c hc)
    have hl2 : (v.map reluQ).length = 256 := by rw [List.length_map, hlv]
    obtain ⟨y, hy, hly⟩ := nnLinear_apply_ok env 256 nc (v.map reluQ) hl2
    refine ⟨y, ?_, hly⟩
    rw [hm2, hv, hm3]
    exact hy
  obtain ⟨logits, hlog⟩ :=
    mapE_ok_of_forall (fun c hc => ⟨(hhead c hc).choose, (hhead c hc).choose_spec.1⟩)
  have hceq : (List.map (TextClassifierModel.make env bname nfeat nc).bert text_data).length =
      nt.length := by rw [hbolen, hntlen, hlen]
  refine ⟨logits, ?_, ?_, ?_⟩
  · unfold TextClassifierModel.forward
    simp only [hnt]
    rw [if_pos hceq]
    exact hlog
  · rw [mapE_ok_length hlog, List.length_zipWith, hbolen, hntlen, hlen, min_self]
  · intro r hr
    obtain ⟨c, hc, hfc⟩ := mapE_ok_mem_right hlog hr
    obtain ⟨y, hy, hly⟩ := hhead c hc
    rw [hfc] at hy
    cases hy
    exact hly

/-- Claim C5: for a model constructed with class count `nc > 0`, on any
batch of N texts with N conforming numeric rows, the forward pass returns
exactly N rows of exactly `nc` logits, and `predict` returns exactly N
values, each the per-row arg-max, an integer in [0, nc). -/
theorem c5_predict_range (env : TorchEnv) (bname : String) (nfeat nc : Nat)
    (text_data : List String) (numeric_features : List (List ℚ))
    (hbert : ∀ s, (env.bertPooler bname s).length = 768)
    (hnc : 0 < nc)
    (hlen : numeric_features.length = text_data.length)
    (hw : ∀ r ∈ numeric_features, r.length = nfeat) :
    ∃ logits,
      (TextClassifierModel.make env bname nfeat nc).forward text_data numeric_features =
        Except.ok logits ∧
      logits.length = text_data.length ∧
      (∀ r ∈ logits, r.length = nc) ∧
      TextClassifierPipeline.predict (TextClassifierModel.make env bname nfeat nc)
        text_data numeric_features = Except.ok (logits.map argmaxIdx) ∧
      (logits.map argmaxIdx).length = text_data.length ∧
      ∀ i ∈ logits.map argmaxIdx, i < nc := by
  obtain ⟨logits, hfwd, hL, hrows⟩ :=
    forward_shapes env bname nfeat nc text_data numeric_features hbert hlen hw
  have hne : ∀ r ∈ logits, r ≠ [] := by
    intro r hr hnil
    have hlr := hrows r hr
    rw [hnil] at hlr
    simp only [List.length_nil] at hlr
    omega
  have hall : logits.all (fun r => !r.isEmpty) = true := by
    rw [List.all_eq_true]
    intro r hr
    simp [List.isEmpty_iff, hne r hr]
  refine ⟨logits, hfwd, hL, hrows, ?_, ?_, ?_⟩
  · unfold TextClassifierPipeline.predict
    simp only [hfwd, hall]
    rw [if_pos trivial]
  · rw [List.length_map, hL]
  · intro i hi
    obtain ⟨r, hr, hieq⟩ := List.mem_map.mp hi
    rw [← hieq]
    calc argmaxIdx r < r.length := argmaxIdx_lt_length (hne r hr)
    _ = nc := hrows r hr

/-- Witness for claim C5: a 1-text batch, the zero-weight environment, 7
numeric features and 3 classes. -/
theorem c5_predict_range_witness :
    ∃ logits,
      (TextClassifierModel.make exTorchEnv exModelName 7 3).forward
        ["hello"] [[10, 1, 1, 0, 0, 1, 1]] = Except.ok logits ∧
      logits.length = (["hello"] : List String).length ∧
      (∀ r ∈ logits, r.length = 3) ∧
      TextClassifierPipeline.predict (TextClassifierModel.make exTorchEnv exModelName 7 3)
        ["hello"] [[10, 1, 1, 0, 0, 1, 1]] = Except.ok (logits.map argmaxIdx) ∧
      (logits.map argmaxIdx).length = (["hello"] : List String).length ∧
      ∀ i ∈ logits.map argmaxIdx, i < 3 :=
  c5_predict_range exTorchEnv exModelName 7 3 ["hello"] [[10, 1, 1, 0, 0, 1, 1]]
    (fun _ => List.length_replicate 768 0) (by decide) rfl
    (by
      intro r hr
      rw [List.mem_singleton.mp hr]
      rfl)

theorem minmaxScale_nonneg_le_one {mn mx x : ℚ} (hmn : mn ≤ x) (hmx : x ≤ mx)
    (hlt : mn < mx) : 0 ≤ minmaxScale (mn, mx) x ∧ minmaxScale (mn, mx) x ≤ 1 := by
  have hd : ¬ (mx - mn = 0) := sub_ne_zero_of_ne (ne_of_gt hlt)
  constructor
  · show 0 ≤ (x - mn) / (if mx - mn = 0 then 1 else mx - mn)
    rw [if_neg hd]
    apply div_nonneg
    · linarith
    · linarith
  · show (x - mn) / (if mx - mn = 0 then 1 else mx - mn) ≤ 1
    rw [if_neg hd]
    rw [div_le_one (by linarith)]
    linarith

theorem minmaxScale_at_min {mn mx : ℚ} : minmaxScale (mn, mx) mn = 0 := by
  show (mn - mn) / (if mx - mn = 0 then 1 else mx - mn) = 0
  rw [sub_self, zero_div]

theorem minmaxScale_at_max {mn mx : ℚ} (hlt : mn < mx) : minmaxScale (mn, mx) mx = 1 := by
  have hd : ¬ (mx - mn = 0) := sub_ne_zero_of_ne (ne_of_gt hlt)
  show (mx - mn) / (if mx - mn = 0 then 1 else mx - mn) = 1
  rw [if_neg hd]
  exact div_self hd

theorem colVals_mem {rows : List (List ℚ)} {i j : Nat} {r : List ℚ} {x : ℚ}
    (hri : rows[i]? = some r) (hrj : r[j]? = some x) : x ∈ colVals rows j :=
  List.mem_filterMap.mpr ⟨r, List.getElem?_mem hri, hrj⟩

theorem fitParams_ok {r0 : List ℚ} {rest : List (List ℚ)}
    (h0 : r0.length ≠ 0)
    (hall : ∀ r ∈ rest, r.length = r0.length) :
    MinMaxScaler.fitParams (r0 :: rest) =
      Except.ok ((List.range r0.length).map (fun j =>
        (listMin (colVals (r0 :: rest) j), listMax (colVals (r0 :: rest) j)))) := by
  have hb : rest.all (fun r => decide (r.length = r0.length)) = true := by
    rw [List.all_eq_true]
    intro r hr
    exact decide_eq_true (hall r hr)
  simp only [MinMaxScaler.fitParams]
  rw [if_neg h0, if_pos hb]

theorem params_getElem {rows : List (List ℚ)} {w j : Nat} (hj : j < w) :
    ((List.range w).map (fun j =>
      (listMin (colVals rows j), listMax (colVals rows j))))[j]? =
      some (listMin (colVals rows j), listMax (colVals rows j)) := by
  rw [List.getElem?_map, List.getElem?_range hj, Option.map_some']

theorem params_inv {rows : List (List ℚ)} {w j : Nat} {p : ℚ × ℚ}
    (h : ((List.range w).map (fun j =>
      (listMin (colVals rows j), listMax (colVals rows j))))[j]? = some p) :
    j < w ∧ p = (listMin (colVals rows j), listMax (colVals rows j)) := by
  rw [List.getElem?_map] at h
  by_cases hj : j < w
  · rw [List.getElem?_range hj, Option.map_some'] at h
    injection h with h2
    exact ⟨hj, h2.symm⟩
  · rw [List.getElem?_eq_none (by rw [List.length_range]; omega), Option.map_none'] at h
    cases h

theorem transform_entry {rows : List (List ℚ)} {params : List (ℚ × ℚ)}
    {i j : Nat} {r : List ℚ} {p : ℚ × ℚ} {x : ℚ}
    (hri : rows[i]? = some r) (hpj : params[j]? = some p) (hrj : r[j]? = some x) :
    rowEntry (rows.map (fun rr => List.zipWith minmaxScale params rr)) i j =
      some (minmaxScale p x) := by
  unfold rowEntry
  rw [List.getElem?_map, hri, Option.map_some']
  show (List.zipWith minmaxScale params r)[j]? = some (minmaxScale p x)
  rw [List.getElem?_zipWith, hpj, hrj]

theorem transform_entry_inv {rows : List (List ℚ)} {params : List (ℚ × ℚ)}
    {i j : Nat} {y : ℚ}
    (h : rowEntry (rows.map (fun rr => List.zipWith minmaxScale params rr)) i j = some y) :
    ∃ r p x, rows[i]? = some r ∧ params[j]? = some p ∧ r[j]? = some x ∧
      y = minmaxScale p x := by
  unfold rowEntry at h
  rw [List.getElem?_map] at h
  cases hri : rows[i]? with
  | none =>
    rw [hri, Option.map_none'] at h
    exact Option.noConfusion h
  | some r =>
    rw [hri, Option.map_some'] at h
    have h2 : (List.zipWith minmaxScale params r)[j]? = some y := h
    rw [List.getElem?_zipWith] at h2
    cases hpj : params[j]? with
    | none =>
      rw [hpj] at h2
      exact Option.noConfusion h2
    | some p =>
      cases hrj : r[j]? with
      | none =>
        rw [hpj, hrj] at h2
        exact Option.noConfusion h2
      | some x =>
        rw [hpj, hrj] at h2
        have h3 : some (minmaxScale p x) = some y := h2
        injection h3 with h4
        exact ⟨r, p, x, rfl, rfl, hrj, h4.symm⟩

/-- Claim C4: on a nonempty batch of well-formed records in which every one
of the 7 numeric columns holds at least two distinct values,
`preprocess_input` succeeds, every entry of the returned normalized matrix
lies in [0, 1], and within each column the rows holding the column's raw
minimum map to 0 and those holding its raw maximum map to 1. -/
theorem c4_normalization (st : PipelineState) (b : List FeaturedText)
    (rows : List (List ℚ))
    (hb : b ≠ []) (hc : ∀ r ∈ b, FeaturedText.completeB r = true)
    (hrows : numericMatrix b = Except.ok rows)
    (hd : ∀ j, j < 7 → ∃ x ∈ colVals rows j, ∃ y ∈ colVals rows j, x ≠ y) :
    ∃ st' td M, TextClassifierPipeline.preprocess_input st b = Except.ok (st', td, M) ∧
      (∀ i j x, rowEntry M i j = some x → 0 ≤ x ∧ x ≤ 1) ∧
      (∀ i j x, rowEntry rows i j = some x →
        (x = listMin (colVals rows j) → rowEntry M i j = some 0) ∧
        (x = listMax (colVals rows j) → rowEntry M i j = some 1)) := by
  have htd : ∃ td, mapE (fun fte => pyGet fte.text) b = Except.ok td := by
    apply mapE_ok_of_forall
    intro r hr
    have hcr := hc r hr
    unfold FeaturedText.completeB FeaturedText.hasAllFields at hcr
    cases hx : r.text with
    | none => rw [hx] at hcr; simp at hcr
    | some t => exact ⟨t, rfl⟩
  obtain ⟨td, htd⟩ := htd
  have hwidth : ∀ r' ∈ rows, r'.length = 7 := by
    intro r' hr'
    obtain ⟨r, hr, hnr⟩ := mapE_ok_mem_right hrows hr'
    obtain ⟨s, f, p, bb, hs, hf, hp, hbb, hrow⟩ := numericRow_ok_iff.mp hnr
    have hcr := hc r hr
    simp only [FeaturedText.completeB, hbb] at hcr
    rw [Bool.and_eq_true] at hcr
    have hbb4 : bb.length = 4 := by simpa using hcr.2
    rw [hrow, List.length_append, hbb4]
    rfl
  have hlenr : rows.length = b.length := mapE_ok_length hrows
  cases rows with
  | nil =>
    exfalso
    cases b with
    | nil => exact hb rfl
    | cons x xs => simp at hlenr
  | cons r0 rest =>
    have h07 : r0.length = 7 := hwidth r0 (List.mem_cons_self r0 rest)
    have h0ne : r0.length ≠ 0 := by rw [h07]; omega
    have hallw : ∀ r ∈ rest, r.length = r0.length := by
      intro r hr
      rw [hwidth r (List.mem_cons_of_mem r0 hr), h07]
    have hfp := fitParams_ok h0ne hallw
    have hcore := preprocessCore_eq_ok htd hrows hfp
    refine ⟨_, td, _, preprocess_input_of_core hcore, ?_, ?_⟩
    · intro i j x hx
      obtain ⟨r, p, v, hri, hpj, hrj, hxeq⟩ := transform_entry_inv hx
      obtain ⟨hj, hpeq⟩ := params_inv hpj
      rw [h07] at hj
      have hv : v ∈ colVals (r0 :: rest) j := colVals_mem hri hrj
      obtain ⟨a1, ha1, a2, ha2, h12⟩ := hd j hj
      have hlt := listMin_lt_listMax ha1 ha2 h12
      have hbounds := minmaxScale_nonneg_le_one (listMin_le hv) (le_listMax hv) hlt
      rw [hxeq, hpeq]
      exact hbounds
    · intro i j x hx
      unfold rowEntry at hx
      cases hri : (r0 :: rest)[i]? with
      | none =>
        rw [hri] at hx
        exact Option.noConfusion hx
      | some r =>
        rw [hri] at hx
        have hrj : r[j]? = some x := hx
        obtain ⟨hjr, _⟩ := List.getElem?_eq_some.mp hrj
        have hj : j < 7 := by
          have := hwidth r (List.getElem?_mem hri)
          omega
        have hj0 : j < r0.length := by rw [h07]; exact hj
        have hpj := @params_getElem (r0 :: rest) r0.length j hj0
        obtain ⟨a1, ha1, a2, ha2, h12⟩ := hd j hj
        have hlt := listMin_lt_listMax ha1 ha2 h12
        constructor
        · intro hxmin
          rw [transform_entry hri hpj hrj, hxmin, minmaxScale_at_min]
        · intro hxmax
          rw [transform_entry hri hpj hrj, hxmax, minmaxScale_at_max hlt]

/-- Witness for claim C4 on a concrete 2-record batch with two distinct
values in every numeric column. -/
theorem c4_normalization_witness :
    ∃ st' td M,
      TextClassifierPipeline.preprocess_input exPipeline [c4r1, c4r2] =
        Except.ok (st', td, M) ∧
      (∀ i j x, rowEntry M i j = some x → 0 ≤ x ∧ x ≤ 1) ∧
      (∀ i j x, rowEntry c4rows i j = some x →
        (x = listMin (colVals c4rows j) → rowEntry M i j = some 0) ∧
        (x = listMax (colVals c4rows j) → rowEntry M i j = some 1)) :=
  c4_normalization exPipeline [c4r1, c4r2] c4rows (List.cons_ne_nil _ _)
    (by decide) rfl
    (by
      intro j hj
      interval_cases j
      · exact ⟨10, List.mem_cons_self _ _,
          12, List.mem_cons_of_mem _ (List.mem_cons_self _ _), by norm_num⟩
      · exact ⟨1, List.mem_cons_self _ _,
          2, List.mem_cons_of_mem _ (List.mem_cons_self _ _), by norm_num⟩
      · exact ⟨1, List.mem_cons_self _ _,
          2, List.mem_cons_of_mem _ (List.mem_cons_self _ _), by norm_num⟩
      · exact ⟨0, List.mem_cons_self _ _,
          1, List.mem_cons_of_mem _ (List.mem_cons_self _ _), by norm_num⟩
      · exact ⟨0, List.mem_cons_self _ _,
          2, List.mem_cons_of_mem _ (List.mem_cons_self _ _), by norm_num⟩
      · exact ⟨1, List.mem_cons_self _ _,
          3, List.mem_cons_of_mem _ (List.mem_cons_self _ _), by norm_num⟩
      · exact ⟨1, List.mem_cons_self _ _,
          4, List.mem_cons_of_mem _ (List.mem_cons_self _ _), by norm_num⟩)

end ImgToText
